import Mathlib

/-!
Verification development for the Logiq AI key-pool dispatcher
(`src/cogs/ai_chat.py`, `src/utils/ai_keys.py`, `src/utils/openrouter.py`).

Modelling conventions:
* wall-clock datetimes are integers counting seconds since `datetime.min`
  in UTC, so every representable datetime value is nonnegative and the
  sentinel `datetime.min.replace(tzinfo=timezone.utc)` used by the key
  scheduler is `0`;
* monotonic clock readings (`time.monotonic()`) are rationals;
* Python float arithmetic is modelled by exact rational arithmetic;
* Mongo documents are structures whose optional fields model absent keys;
* Python dictionaries keyed by ints are association lists.
-/

namespace Logiq

/-- `MAX_KEY_ATTEMPTS` from `ai_chat.py`. -/
def MAX_KEY_ATTEMPTS : Nat := 3

/-- `DEFAULT_RATE_LIMIT_COOLDOWN_SECONDS` from `ai_chat.py`. -/
def DEFAULT_RATE_LIMIT_COOLDOWN_SECONDS : Int := 30

/-- `DEFAULT_SERVER_ERROR_COOLDOWN_SECONDS` from `ai_chat.py`. -/
def DEFAULT_SERVER_ERROR_COOLDOWN_SECONDS : Int := 20

/-- `MAX_STATUS_TEXT` from `ai_chat.py`. -/
def MAX_STATUS_TEXT : Nat := 600

/-- Encrypted key payload as stored by `encrypt_api_key`: a dict with
`nonce` and `ciphertext` entries, each a base64 string.  `none` models a
missing dictionary key. -/
structure EncPayload where
  nonce : Option String
  ciphertext : Option String
deriving Repr, DecidableEq

/-- One AI key document (`ai_api_keys` row) with the fields read or
written by `ai_chat.py`. -/
structure KeyDoc where
  guild_id : Int
  name : String
  encrypted_api_key : EncPayload
  api_key_fingerprint : String
  enabled : Option Bool
  cooldown_until : Option Int
  rpm_limit : Option Int
  rpd_limit : Option Int
  minute_window_started_at : Option Int
  minute_window_count : Option Int
  day_started_at : Option Int
  day_count : Option Int
  last_used_at : Option Int
  last_error : Option String
  last_error_code : Option Int
  last_error_at : Option Int
  updated_at : Option Int
deriving Repr, DecidableEq

/-- `AIChat._window_state`: advance one rolling window.  `int(count or 0)`
is `Option.getD 0`; `not start` is `start = none` (a datetime is always
truthy); `(now - start).total_seconds() >= window_seconds` is integer
comparison in seconds. -/
def window_state (start : Option Int) (count : Option Int)
    (window_seconds : Int) (now : Int) : Int × Int :=
  match start with
  | none => (now, 0)
  | some s => if now - s ≥ window_seconds then (now, 0) else (s, count.getD 0)

/-- The `cooldown_until and now < cooldown_until` test from
`AIChat._build_key_candidate` (a datetime object is always truthy). -/
def cooldown_blocked (cooldown_until : Option Int) (now : Int) : Bool :=
  match cooldown_until with
  | none => false
  | some cu => decide (now < cu)

/-- Eligible-key record produced by `AIChat._build_key_candidate`. -/
structure Candidate where
  doc : KeyDoc
  score : ℚ
  minute_start : Int
  minute_count : Int
  day_start : Int
  day_count : Int
  last_used_at : Option Int
deriving Repr, DecidableEq

/-- `AIChat._build_key_candidate`: the credential eligibility filter.
Mirrors the source line by line; `int(doc.get("rpm_limit") or 0)` is
`Option.getD 0` (a stored `0` and a missing field both yield `0`). -/
def build_key_candidate (doc : KeyDoc) (now : Int) : Option Candidate :=
  if doc.enabled.getD true = false then none
  else if cooldown_blocked doc.cooldown_until now then none
  else
    let rpm_limit := doc.rpm_limit.getD 0
    let rpd_limit := doc.rpd_limit.getD 0
    if rpm_limit ≤ 0 ∨ rpd_limit ≤ 0 then none
    else
      let ms := window_state doc.minute_window_started_at doc.minute_window_count 60 now
      let ds := window_state doc.day_started_at doc.day_count 86400 now
      if ms.2 ≥ rpm_limit ∨ ds.2 ≥ rpd_limit then none
      else
        let remaining_rpm : ℚ := ((rpm_limit : ℚ) - (ms.2 : ℚ)) / (rpm_limit : ℚ)
        let remaining_rpd : ℚ := ((rpd_limit : ℚ) - (ds.2 : ℚ)) / (rpd_limit : ℚ)
        some { doc := doc
               score := remaining_rpm * (2/5) + remaining_rpd * (3/5)
               minute_start := ms.1
               minute_count := ms.2
               day_start := ds.1
               day_count := ds.2
               last_used_at := doc.last_used_at }

/-- C6: for every window_start, window_count, window_duration and now, the
window advance returns a fresh `(now, 0)` exactly when the start is absent
or `now - window_start >= window_duration`, and otherwise returns the
input pair unchanged. -/
theorem window_state_advances_correctly (start : Option Int) (count : Int)
    (window_seconds : Int) (now : Int) :
    (start = none → window_state start (some count) window_seconds now = (now, 0))
    ∧ (∀ s, start = some s → now - s ≥ window_seconds →
        window_state start (some count) window_seconds now = (now, 0))
    ∧ (∀ s, start = some s → now - s < window_seconds →
        window_state start (some count) window_seconds now = (s, count)) := by
  refine ⟨?_, ?_, ?_⟩
  · rintro rfl; rfl
  · rintro s rfl h
    simp [window_state, if_pos h]
  · rintro s rfl h
    simp [window_state, not_le.mpr h, Option.getD]

/-- Witness for C6 at a concrete expired window and a concrete live one. -/
theorem window_state_advances_correctly_witness :
    window_state (some 10) (some 7) 60 70 = (70, 0)
    ∧ window_state (some 10) (some 7) 60 69 = (10, 7) := by
  constructor
  · exact (window_state_advances_correctly (some 10) 7 60 70).2.1 10 rfl (by decide)
  · exact (window_state_advances_correctly (some 10) 7 60 69).2.2 10 rfl (by decide)

/-- C2: the eligibility filter rejects exactly on disabled, active
cooldown, non-positive quota limit, or an advanced window count that has
reached its limit; otherwise it accepts with the weighted headroom score
computed over the advanced window values. -/
theorem build_key_candidate_eligibility (doc : KeyDoc) (now : Int) :
    (build_key_candidate doc now = none ↔
      doc.enabled.getD true = false
      ∨ (∃ cu, doc.cooldown_until = some cu ∧ now < cu)
      ∨ doc.rpm_limit.getD 0 ≤ 0
      ∨ doc.rpd_limit.getD 0 ≤ 0
      ∨ (window_state doc.minute_window_started_at doc.minute_window_count 60 now).2
          ≥ doc.rpm_limit.getD 0
      ∨ (window_state doc.day_started_at doc.day_count 86400 now).2
          ≥ doc.rpd_limit.getD 0)
    ∧ (∀ c, build_key_candidate doc now = some c →
        c.score = (2/5 : ℚ) *
            (((doc.rpm_limit.getD 0 : ℚ)
              - ((window_state doc.minute_window_started_at doc.minute_window_count 60 now).2 : ℚ))
            / (doc.rpm_limit.getD 0 : ℚ))
          + (3/5 : ℚ) *
            (((doc.rpd_limit.getD 0 : ℚ)
              - ((window_state doc.day_started_at doc.day_count 86400 now).2 : ℚ))
            / (doc.rpd_limit.getD 0 : ℚ))
        ∧ c.minute_start
            = (window_state doc.minute_window_started_at doc.minute_window_count 60 now).1
        ∧ c.minute_count
            = (window_state doc.minute_window_started_at doc.minute_window_count 60 now).2
        ∧ c.day_start = (window_state doc.day_started_at doc.day_count 86400 now).1
        ∧ c.day_count = (window_state doc.day_started_at doc.day_count 86400 now).2
        ∧ c.doc = doc ∧ c.last_used_at = doc.last_used_at) := by
  have hcb : cooldown_blocked doc.cooldown_until now = true
      ↔ ∃ cu, doc.cooldown_until = some cu ∧ now < cu := by
    cases h : doc.cooldown_until <;> simp [cooldown_blocked]
  constructor
  · simp only [build_key_candidate]
    split_ifs with h1 h2 h3 h4
    · exact iff_of_true rfl (Or.inl h1)
    · exact iff_of_true rfl (Or.inr (Or.inl (hcb.mp h2)))
    · rcases h3 with h3 | h3
      · exact iff_of_true rfl (Or.inr (Or.inr (Or.inl h3)))
      · exact iff_of_true rfl (Or.inr (Or.inr (Or.inr (Or.inl h3))))
    · rcases h4 with h4 | h4
      · exact iff_of_true rfl (Or.inr (Or.inr (Or.inr (Or.inr (Or.inl h4)))))
      · exact iff_of_true rfl (Or.inr (Or.inr (Or.inr (Or.inr (Or.inr h4)))))
    · refine iff_of_false (by simp) ?_
      rintro (h | hex | h | h | h | h)
      · exact h1 h
      · exact h2 (hcb.mpr hex)
      · exact h3 (Or.inl h)
      · exact h3 (Or.inr h)
      · exact h4 (Or.inl h)
      · exact h4 (Or.inr h)
  · intro c hc
    simp only [build_key_candidate] at hc
    split_ifs at hc with h1 h2 h3 h4
    rcases Option.some.inj hc with rfl
    refine ⟨?_, rfl, rfl, rfl, rfl, rfl, rfl⟩
    ring

/-- Concrete key document with one-request quotas and fresh windows,
eligible at time `0`. -/
def demoEligibleDoc : KeyDoc :=
  { guild_id := 1
    name := "k1"
    encrypted_api_key := { nonce := some "", ciphertext := some "" }
    api_key_fingerprint := "fp"
    enabled := some true
    cooldown_until := none
    rpm_limit := some 1
    rpd_limit := some 1
    minute_window_started_at := none
    minute_window_count := none
    day_started_at := none
    day_count := none
    last_used_at := none
    last_error := none
    last_error_code := none
    last_error_at := none
    updated_at := none }

/-- Witness for C2: the filter accepts `demoEligibleDoc` at time `0` and
its score and window fields satisfy the stated formulas. -/
theorem build_key_candidate_eligibility_witness :
    ∃ c, build_key_candidate demoEligibleDoc 0 = some c
      ∧ (c.score = (2/5 : ℚ) *
            (((demoEligibleDoc.rpm_limit.getD 0 : ℚ)
              - ((window_state demoEligibleDoc.minute_window_started_at
                    demoEligibleDoc.minute_window_count 60 0).2 : ℚ))
            / (demoEligibleDoc.rpm_limit.getD 0 : ℚ))
          + (3/5 : ℚ) *
            (((demoEligibleDoc.rpd_limit.getD 0 : ℚ)
              - ((window_state demoEligibleDoc.day_started_at
                    demoEligibleDoc.day_count 86400 0).2 : ℚ))
            / (demoEligibleDoc.rpd_limit.getD 0 : ℚ))
        ∧ c.minute_count = 0 ∧ c.day_count = 0) := by
  rcases h : build_key_candidate demoEligibleDoc 0 with _ | c
  · have hd := (build_key_candidate_eligibility demoEligibleDoc 0).1.mp h
    rcases hd with h1 | ⟨cu, hcu, _⟩ | h1 | h1 | h1 | h1
    · exact absurd h1 (by decide)
    · simp [demoEligibleDoc] at hcu
    · exact absurd h1 (by decide)
    · exact absurd h1 (by decide)
    · exact absurd h1 (by decide)
    · exact absurd h1 (by decide)
  · have hs := (build_key_candidate_eligibility demoEligibleDoc 0).2 c h
    have hmc : c.minute_count = 0 := by rw [hs.2.2.1]; decide
    have hdc : c.day_count = 0 := by rw [hs.2.2.2.2.1]; decide
    exact ⟨c, rfl, hs.1, hmc, hdc⟩

/-- Shared helper: an accepted candidate carries its document and the
document's `last_used_at`. -/
theorem build_key_candidate_carries_doc (doc : KeyDoc) (now : Int) (c : Candidate)
    (h : build_key_candidate doc now = some c) :
    c.doc = doc ∧ c.last_used_at = doc.last_used_at := by
  simp only [build_key_candidate] at h
  split_ifs at h
  rcases Option.some.inj h with rfl
  exact ⟨rfl, rfl⟩

/-- Sort-key order of `AIChat._select_key_candidates`: Python's
`list.sort` key is the tuple `(-score, last_used_at or datetime.min)`
compared lexicographically ascending, with `datetime.min` being `0` in
the model. -/
def candidate_key_le (a b : Candidate) : Prop :=
  b.score < a.score
    ∨ (a.score = b.score ∧ a.last_used_at.getD 0 ≤ b.last_used_at.getD 0)

instance : DecidableRel candidate_key_le := fun _ _ =>
  inferInstanceAs (Decidable (_ ∨ _))

instance : IsTotal Candidate candidate_key_le where
  total a b := by
    rcases lt_trichotomy a.score b.score with h | h | h
    · exact Or.inr (Or.inl h)
    · rcases le_total (a.last_used_at.getD 0) (b.last_used_at.getD 0) with hl | hl
      · exact Or.inl (Or.inr ⟨h, hl⟩)
      · exact Or.inr (Or.inr ⟨h.symm, hl⟩)
    · exact Or.inl (Or.inl h)

instance : IsTrans Candidate candidate_key_le where
  trans a b c hab hbc := by
    rcases hab with hab | ⟨hab, hab2⟩
    · rcases hbc with hbc | ⟨hbc, _⟩
      · exact Or.inl (hbc.trans hab)
      · exact Or.inl (hbc ▸ hab)
    · rcases hbc with hbc | ⟨hbc, hbc2⟩
      · exact Or.inl (by rw [hab]; exact hbc)
      · exact Or.inr ⟨hab.trans hbc, hab2.trans hbc2⟩

/-- `AIChat._select_key_candidates`: run the eligibility filter over the
pool and sort the survivors with Python's stable sort by
`(-score, last_used_at or datetime.min)`.  A stable sort under a total
preorder is unique, so Mathlib's `insertionSort` models `list.sort`. -/
def select_key_candidates (pool : List KeyDoc) (now : Int) : List Candidate :=
  List.insertionSort candidate_key_le
    (pool.filterMap (fun doc => build_key_candidate doc now))

/-- C1 (amended): the candidate list is a permutation of the eligible
pool entries and is sorted by descending score with ascending
`last_used_at` tie-break, never-used credentials taking the
`datetime.min` sentinel; among equal scores a credential ordered before a
never-used one can itself only be never-used or recorded exactly at
`datetime.min`. -/
theorem select_key_candidates_ordering (pool : List KeyDoc) (now : Int)
    (hts : ∀ d ∈ pool, ∀ t, d.last_used_at = some t → 0 ≤ t) :
    (select_key_candidates pool now).Perm
        (pool.filterMap (fun doc => build_key_candidate doc now))
    ∧ (select_key_candidates pool now).Pairwise candidate_key_le
    ∧ (select_key_candidates pool now).Pairwise (fun a b =>
        a.score = b.score → b.last_used_at = none →
          a.last_used_at = none ∨ a.last_used_at = some 0) := by
  simp only [select_key_candidates]
  have hperm := List.perm_insertionSort candidate_key_le
    (pool.filterMap (fun doc => build_key_candidate doc now))
  have hsorted := List.sorted_insertionSort candidate_key_le
    (pool.filterMap (fun doc => build_key_candidate doc now))
  refine ⟨hperm, hsorted, List.Pairwise.imp_of_mem ?_ hsorted⟩
  intro a b ha _hb hr heq hbnone
  have ha2 : a ∈ pool.filterMap (fun doc => build_key_candidate doc now) :=
    hperm.mem_iff.mp ha
  rcases List.mem_filterMap.mp ha2 with ⟨d, hd, hbuild⟩
  have hlu : a.last_used_at = d.last_used_at :=
    (build_key_candidate_carries_doc d now a hbuild).2
  rcases hc : a.last_used_at with _ | t
  · exact Or.inl rfl
  · right
    have ht : 0 ≤ t := hts d hd t (hlu ▸ hc)
    rcases hr with hlt | ⟨_, hle⟩
    · exact absurd (heq ▸ hlt) (lt_irrefl _)
    · have hle0 : a.last_used_at.getD 0 ≤ 0 := by
        rw [hbnone] at hle; simpa using hle
      rw [hc] at hle0
      simp only [Option.getD_some] at hle0
      rw [le_antisymm hle0 ht]

/-- `demoEligibleDoc` with a recorded `last_used_at` equal to the
`datetime.min` sentinel. -/
def demoUsedDoc : KeyDoc :=
  { demoEligibleDoc with name := "a", last_used_at := some 0 }

/-- `demoEligibleDoc`, never used, listed after `demoUsedDoc`. -/
def demoFreshDoc : KeyDoc :=
  { demoEligibleDoc with name := "b" }

/-- Score produced by the filter for either demo document. -/
def demoTieScore : ℚ :=
  (((1 : Int) : ℚ) - ((0 : Int) : ℚ)) / ((1 : Int) : ℚ) * (2/5)
    + (((1 : Int) : ℚ) - ((0 : Int) : ℚ)) / ((1 : Int) : ℚ) * (3/5)

/-- Candidate built from `demoUsedDoc` at time `0`. -/
def demoUsedCand : Candidate :=
  { doc := demoUsedDoc, score := demoTieScore, minute_start := 0,
    minute_count := 0, day_start := 0, day_count := 0, last_used_at := some 0 }

/-- Candidate built from `demoFreshDoc` at time `0`. -/
def demoFreshCand : Candidate :=
  { doc := demoFreshDoc, score := demoTieScore, minute_start := 0,
    minute_count := 0, day_start := 0, day_count := 0, last_used_at := none }

/-- Counterexample to C1 as stated: two equal-score eligible credentials,
the first recorded at `datetime.min` (`some 0`), the second never used;
the stable sort keeps the recorded one first, so the never-used
credential is NOT ordered before every equal-score credential that has a
recorded `last_used_at`. -/
theorem select_never_used_not_first_cex :
    select_key_candidates [demoUsedDoc, demoFreshDoc] 0
        = [demoUsedCand, demoFreshCand]
    ∧ demoUsedCand.score = demoFreshCand.score
    ∧ demoUsedCand.last_used_at = some 0
    ∧ demoFreshCand.last_used_at = none := by
  have hr : candidate_key_le demoUsedCand demoFreshCand :=
    Or.inr ⟨rfl, by decide⟩
  refine ⟨?_, rfl, rfl, rfl⟩
  have hfm : List.filterMap (fun doc => build_key_candidate doc 0)
      [demoUsedDoc, demoFreshDoc] = [demoUsedCand, demoFreshCand] := rfl
  have h1 : select_key_candidates [demoUsedDoc, demoFreshDoc] 0
      = List.insertionSort candidate_key_le [demoUsedCand, demoFreshCand] := by
    simp only [select_key_candidates]
    rw [hfm]
  rw [h1]
  simp only [List.insertionSort, List.orderedInsert]
  rw [if_pos hr]

/-- Witness for C1 (amended) on the two-document demo pool. -/
theorem select_key_candidates_ordering_witness :
    (select_key_candidates [demoUsedDoc, demoFreshDoc] 0).Perm
        (List.filterMap (fun doc => build_key_candidate doc 0)
          [demoUsedDoc, demoFreshDoc])
    ∧ (select_key_candidates [demoUsedDoc, demoFreshDoc] 0).Pairwise candidate_key_le
    ∧ (select_key_candidates [demoUsedDoc, demoFreshDoc] 0).Pairwise (fun a b =>
        a.score = b.score → b.last_used_at = none →
          a.last_used_at = none ∨ a.last_used_at = some 0) :=
  select_key_candidates_ordering [demoUsedDoc, demoFreshDoc] 0 (by
    intro d hd t ht
    simp only [List.mem_cons, List.not_mem_nil, or_false] at hd
    rcases hd with rfl | rfl
    · rw [show demoUsedDoc.last_used_at = some 0 from rfl] at ht
      rw [← Option.some.inj ht]
    · rw [show demoFreshDoc.last_used_at = none from rfl] at ht
      cases ht)

/-- Field update written by `AIChat._update_key_usage` through
`db.update_ai_api_key`: persist the advanced windows with both counts
incremented, stamp `last_used_at`/`updated_at`, and null the error
fields.  The update dict has no `cooldown_until` entry. -/
def update_key_usage (doc : KeyDoc) (candidate : Candidate) (now : Int) : KeyDoc :=
  { doc with
    minute_window_started_at := some candidate.minute_start
    minute_window_count := some (candidate.minute_count + 1)
    day_started_at := some candidate.day_start
    day_count := some (candidate.day_count + 1)
    last_used_at := some now
    last_error := none
    last_error_code := none
    last_error_at := none
    updated_at := some now }

/-- C4 (amended): the reservation persists the advanced windows with both
counts incremented by one, stamps `last_used_at` and `updated_at`, and
nulls the error fields, while `cooldown_until` and every other field are
left unchanged. -/
theorem update_key_usage_effects (doc : KeyDoc) (candidate : Candidate) (now : Int) :
    (update_key_usage doc candidate now).minute_window_started_at
        = some candidate.minute_start
    ∧ (update_key_usage doc candidate now).minute_window_count
        = some (candidate.minute_count + 1)
    ∧ (update_key_usage doc candidate now).day_started_at = some candidate.day_start
    ∧ (update_key_usage doc candidate now).day_count = some (candidate.day_count + 1)
    ∧ (update_key_usage doc candidate now).last_used_at = some now
    ∧ (update_key_usage doc candidate now).last_error = none
    ∧ (update_key_usage doc candidate now).last_error_code = none
    ∧ (update_key_usage doc candidate now).last_error_at = none
    ∧ (update_key_usage doc candidate now).updated_at = some now
    ∧ (update_key_usage doc candidate now).cooldown_until = doc.cooldown_until
    ∧ (update_key_usage doc candidate now).guild_id = doc.guild_id
    ∧ (update_key_usage doc candidate now).name = doc.name
    ∧ (update_key_usage doc candidate now).encrypted_api_key = doc.encrypted_api_key
    ∧ (update_key_usage doc candidate now).api_key_fingerprint = doc.api_key_fingerprint
    ∧ (update_key_usage doc candidate now).enabled = doc.enabled
    ∧ (update_key_usage doc candidate now).rpm_limit = doc.rpm_limit
    ∧ (update_key_usage doc candidate now).rpd_limit = doc.rpd_limit := by
  refine ⟨rfl, rfl, rfl, rfl, rfl, rfl, rfl, rfl, rfl, rfl, rfl, rfl, rfl, rfl,
    rfl, rfl, rfl⟩

/-- `demoEligibleDoc` carrying a stale cooldown already in the past at
time `100`. -/
def demoStaleCooldownDoc : KeyDoc :=
  { demoEligibleDoc with cooldown_until := some 5 }

/-- Counterexample to C4 as stated: the reservation update does not clear
the stale cooldown; `cooldown_until` keeps its old value instead of being
removed or nulled. -/
theorem update_key_usage_keeps_cooldown_cex :
    (update_key_usage demoStaleCooldownDoc demoUsedCand 100).cooldown_until = some 5
    ∧ (update_key_usage demoStaleCooldownDoc demoUsedCand 100).cooldown_until
        ≠ none := by
  exact ⟨rfl, by decide⟩

/-- One-step lookup in a Python int-keyed dict modelled as an
association list. -/
def dget : List (Int × Int) → Int → Option Int
  | [], _ => none
  | (k, v) :: rest, g => if k = g then some v else dget rest g

/-- Python dict item assignment: replace the first binding or append. -/
def dset : List (Int × Int) → Int → Int → List (Int × Int)
  | [], g, v => [(g, v)]
  | (k, w) :: rest, g, v =>
      if k = g then (g, v) :: rest else (k, w) :: dset rest g v

/-- Python `dict.pop(key, None)`: drop the first binding for the key. -/
def dpop : List (Int × Int) → Int → List (Int × Int)
  | [], _ => []
  | (k, w) :: rest, g => if k = g then rest else (k, w) :: dpop rest g

/-- Number of bindings an association list holds for one key; a real
Python dict always has at most one. -/
def keyCount : List (Int × Int) → Int → Nat
  | [], _ => 0
  | (k, _) :: rest, g => (if k = g then 1 else 0) + keyCount rest g

/-- In-flight count read for a tenant, `self.guild_inflight.get(guild_id, 0)`. -/
def gcount (m : List (Int × Int)) (g : Int) : Int := (dget m g).getD 0

/-- `AIChat._acquire_guild_slot` body (inside the per-guild lock). -/
def acquire_guild_slot (m : List (Int × Int)) (g : Int) (max_concurrent : Int) :
    Bool × List (Int × Int) :=
  let inflight := gcount m g
  if inflight ≥ max_concurrent then (false, m)
  else (true, dset m g (inflight + 1))

/-- `AIChat._release_guild_slot` body (inside the per-guild lock). -/
def release_guild_slot (m : List (Int × Int)) (g : Int) : List (Int × Int) :=
  let inflight := max 0 (gcount m g - 1)
  if inflight = 0 then dpop m g else dset m g inflight

/-- A serialized history of gate operations for one tenant. -/
inductive GateOp
  | acq
  | rel
deriving Repr, DecidableEq

/-- Run a serialized history of acquires and releases for tenant `g`
with a fixed ceiling. -/
def run_gate (g max_concurrent : Int) : List GateOp → List (Int × Int) → List (Int × Int)
  | [], m => m
  | GateOp.acq :: ops, m => run_gate g max_concurrent ops (acquire_guild_slot m g max_concurrent).2
  | GateOp.rel :: ops, m => run_gate g max_concurrent ops (release_guild_slot m g)

theorem dget_dset_self (m : List (Int × Int)) (g v : Int) :
    dget (dset m g v) g = some v := by
  induction m with
  | nil => simp [dset, dget]
  | cons p rest ih =>
    rcases p with ⟨k, w⟩
    by_cases h : k = g
    · simp [dset, dget, h]
    · simp [dset, dget, h, ih]

theorem keyCount_zero_dget (m : List (Int × Int)) (g : Int)
    (h : keyCount m g = 0) : dget m g = none := by
  induction m with
  | nil => rfl
  | cons p rest ih =>
    rcases p with ⟨k, w⟩
    by_cases hk : k = g
    · simp [keyCount, hk] at h
    · simp [keyCount, hk] at h
      simp [dget, hk, ih h]

theorem dget_dpop_self (m : List (Int × Int)) (g : Int)
    (h : keyCount m g ≤ 1) : dget (dpop m g) g = none := by
  induction m with
  | nil => rfl
  | cons p rest ih =>
    rcases p with ⟨k, w⟩
    by_cases hk : k = g
    · simp only [dpop, if_pos hk]
      simp [keyCount, hk] at h
      exact keyCount_zero_dget rest g (by omega)
    · simp [keyCount, hk] at h
      simp [dpop, dget, hk, ih h]

theorem keyCount_dset (m : List (Int × Int)) (g v : Int)
    (h : keyCount m g ≤ 1) : keyCount (dset m g v) g ≤ 1 := by
  induction m with
  | nil => simp [dset, keyCount]
  | cons p rest ih =>
    rcases p with ⟨k, w⟩
    by_cases hk : k = g
    · subst hk
      simpa [dset, keyCount] using h
    · have h2 : keyCount rest g ≤ 1 := by simpa [keyCount, hk] using h
      simpa [dset, keyCount, hk] using ih h2

theorem keyCount_dpop (m : List (Int × Int)) (g : Int) :
    keyCount (dpop m g) g ≤ keyCount m g := by
  induction m with
  | nil => exact le_refl _
  | cons p rest ih =>
    rcases p with ⟨k, w⟩
    by_cases hk : k = g
    · simp [dpop, keyCount, hk]
    · simpa [dpop, keyCount, hk] using ih

theorem gcount_dset_self (m : List (Int × Int)) (g v : Int) :
    gcount (dset m g v) g = v := by
  simp [gcount, dget_dset_self]

theorem gcount_dpop_self (m : List (Int × Int)) (g : Int)
    (h : keyCount m g ≤ 1) : gcount (dpop m g) g = 0 := by
  simp [gcount, dget_dpop_self m g h]

/-- Gate state invariant for tenant `g` under ceiling `maxc`. -/
def GateInv (g maxc : Int) (m : List (Int × Int)) : Prop :=
  0 ≤ gcount m g ∧ gcount m g ≤ maxc ∧ keyCount m g ≤ 1

theorem acquire_preserves_inv (m : List (Int × Int)) (g maxc : Int)
    (h : GateInv g maxc m) : GateInv g maxc (acquire_guild_slot m g maxc).2 := by
  rcases h with ⟨h0, h1, h2⟩
  simp only [acquire_guild_slot]
  by_cases hge : gcount m g ≥ maxc
  · rw [if_pos hge]
    exact ⟨h0, h1, h2⟩
  · rw [if_neg hge]
    refine ⟨?_, ?_, ?_⟩
    · show 0 ≤ gcount (dset m g (gcount m g + 1)) g
      rw [gcount_dset_self]
      omega
    · show gcount (dset m g (gcount m g + 1)) g ≤ maxc
      rw [gcount_dset_self]
      omega
    · exact keyCount_dset m g _ h2

theorem release_preserves_inv (m : List (Int × Int)) (g maxc : Int)
    (hmax : 0 ≤ maxc) (h : GateInv g maxc m) :
    GateInv g maxc (release_guild_slot m g) := by
  rcases h with ⟨h0, h1, h2⟩
  simp only [release_guild_slot]
  by_cases hz : max 0 (gcount m g - 1) = 0
  · rw [if_pos hz]
    refine ⟨?_, ?_, le_trans (keyCount_dpop m g) h2⟩
    · rw [gcount_dpop_self m g h2]
    · rw [gcount_dpop_self m g h2]
      exact hmax
  · rw [if_neg hz]
    refine ⟨?_, ?_, ?_⟩
    · show 0 ≤ gcount (dset m g (max 0 (gcount m g - 1))) g
      rw [gcount_dset_self]
      exact le_max_left 0 _
    · show gcount (dset m g (max 0 (gcount m g - 1))) g ≤ maxc
      rw [gcount_dset_self]
      exact max_le hmax (by omega)
    · exact keyCount_dset m g _ h2

theorem run_gate_preserves_inv (g maxc : Int) (hmax : 0 ≤ maxc)
    (ops : List GateOp) (m : List (Int × Int)) (h : GateInv g maxc m) :
    GateInv g maxc (run_gate g maxc ops m) := by
  induction ops generalizing m with
  | nil => exact h
  | cons op ops ih =>
    cases op
    · exact ih _ (acquire_preserves_inv m g maxc h)
    · exact ih _ (release_preserves_inv m g maxc hmax h)

/-- C7: acquire refuses without state change at or above the ceiling and
otherwise increments and succeeds; release decrements (floored at zero)
and removes the entry at zero; under serialized operations from the
empty state the in-flight count stays within `[0, ceiling]`. -/
theorem guild_slot_gate_correct :
    (∀ (m : List (Int × Int)) (g maxc : Int), gcount m g ≥ maxc →
        acquire_guild_slot m g maxc = (false, m))
    ∧ (∀ (m : List (Int × Int)) (g maxc : Int), gcount m g < maxc →
        (acquire_guild_slot m g maxc).1 = true
        ∧ gcount (acquire_guild_slot m g maxc).2 g = gcount m g + 1)
    ∧ (∀ (m : List (Int × Int)) (g : Int), keyCount m g ≤ 1 →
        gcount (release_guild_slot m g) g = max 0 (gcount m g - 1)
        ∧ (max 0 (gcount m g - 1) = 0 → dget (release_guild_slot m g) g = none))
    ∧ (∀ (g maxc : Int) (ops : List GateOp), 0 ≤ maxc →
        0 ≤ gcount (run_gate g maxc ops []) g
        ∧ gcount (run_gate g maxc ops []) g ≤ maxc) := by
  refine ⟨?_, ?_, ?_, ?_⟩
  · intro m g maxc hge
    simp only [acquire_guild_slot]
    rw [if_pos hge]
  · intro m g maxc hlt
    have hneg : ¬ gcount m g ≥ maxc := not_le.mpr hlt
    constructor
    · simp only [acquire_guild_slot]
      rw [if_neg hneg]
    · simp only [acquire_guild_slot]
      rw [if_neg hneg]
      exact gcount_dset_self m g _
  · intro m g hu
    constructor
    · simp only [release_guild_slot]
      by_cases hz : max 0 (gcount m g - 1) = 0
      · rw [if_pos hz, hz]
        exact gcount_dpop_self m g hu
      · rw [if_neg hz]
        exact gcount_dset_self m g _
    · intro hz
      simp only [release_guild_slot]
      rw [if_pos hz]
      exact dget_dpop_self m g hu
  · intro g maxc ops hmax
    have hbase : GateInv g maxc [] := by
      refine ⟨?_, ?_, ?_⟩
      · show (0 : Int) ≤ gcount [] g
        rw [show gcount [] g = 0 from rfl]
      · show gcount [] g ≤ maxc
        rw [show gcount [] g = 0 from rfl]
        exact hmax
      · show keyCount [] g ≤ 1
        exact Nat.zero_le 1
    have h := run_gate_preserves_inv g maxc hmax ops [] hbase
    exact ⟨h.1, h.2.1⟩

/-- Witness for C7: a full tenant refuses a third acquire under ceiling
2, an empty tenant acquires to count 1, a count-1 tenant releases to an
absent entry, and three serialized acquires under ceiling 2 leave the
count within the bounds. -/
theorem guild_slot_gate_correct_witness :
    acquire_guild_slot [(1, 2)] 1 2 = (false, [(1, 2)])
    ∧ ((acquire_guild_slot [] 1 2).1 = true
        ∧ gcount (acquire_guild_slot [] 1 2).2 1 = gcount ([] : List (Int × Int)) 1 + 1)
    ∧ (gcount (release_guild_slot [(1, 1)] 1) 1 = max 0 (gcount [(1, 1)] 1 - 1)
        ∧ (max 0 (gcount [(1, 1)] 1 - 1) = 0 → dget (release_guild_slot [(1, 1)] 1) 1 = none))
    ∧ (0 ≤ gcount (run_gate 1 2 [GateOp.acq, GateOp.acq, GateOp.acq] []) 1
        ∧ gcount (run_gate 1 2 [GateOp.acq, GateOp.acq, GateOp.acq] []) 1 ≤ 2) :=
  ⟨guild_slot_gate_correct.1 [(1, 2)] 1 2 (by decide),
   guild_slot_gate_correct.2.1 [] 1 2 (by decide),
   guild_slot_gate_correct.2.2.1 [(1, 1)] 1 (by decide),
   guild_slot_gate_correct.2.2.2 1 2 [GateOp.acq, GateOp.acq, GateOp.acq] (by decide)⟩

/-- `AIChat._cooldown_remaining`; the monotonic clock reading
`time.monotonic()` is passed explicitly as `now`. -/
def cooldown_remaining (now : ℚ) (last_ts : Option ℚ) (cooldown_seconds : Int) : ℚ :=
  match last_ts with
  | none => 0
  | some t => max 0 ((cooldown_seconds : ℚ) - (now - t))

/-- Python `int()` truncation toward zero of a float, as used in the
cooldown messages and the Retry-After parsing. -/
def pyInt (q : ℚ) : Int := Int.tdiv q.num (q.den : Int)

/-- Message returned for an active per-user cooldown. -/
def user_cooldown_message (r : Int) : String :=
  "Cooldown active. Try again in " ++ toString r ++ "s."

/-- Message returned for an active per-channel cooldown. -/
def channel_cooldown_message (r : Int) : String :=
  "Channel cooldown active. Try again in " ++ toString r ++ "s."

/-- `AIChat._check_cooldowns` for fixed tenant, actor and channel: the
stored per-key monotonic stamps are passed as the two `last` values. -/
def check_cooldowns (now : ℚ) (user_last channel_last : Option ℚ)
    (user_cooldown channel_cooldown : Int) : Option String :=
  let user_remaining := cooldown_remaining now user_last user_cooldown
  if user_remaining > 0 then
    some (user_cooldown_message (pyInt user_remaining))
  else
    let channel_remaining := cooldown_remaining now channel_last channel_cooldown
    if channel_remaining > 0 then
      some (channel_cooldown_message (pyInt channel_remaining))
    else none

/-- C8 (amended): remaining times are never negative; the check returns
the actor requirement whenever the actor cooldown is unmet (even when the
channel one is larger), else the channel requirement when unmet, else
nothing. -/
theorem check_cooldowns_first_unmet (now : ℚ) (user_last channel_last : Option ℚ)
    (user_cooldown channel_cooldown : Int) :
    0 ≤ cooldown_remaining now user_last user_cooldown
    ∧ 0 ≤ cooldown_remaining now channel_last channel_cooldown
    ∧ (0 < cooldown_remaining now user_last user_cooldown →
        check_cooldowns now user_last channel_last user_cooldown channel_cooldown
          = some (user_cooldown_message
              (pyInt (cooldown_remaining now user_last user_cooldown))))
    ∧ (cooldown_remaining now user_last user_cooldown ≤ 0 →
        0 < cooldown_remaining now channel_last channel_cooldown →
        check_cooldowns now user_last channel_last user_cooldown channel_cooldown
          = some (channel_cooldown_message
              (pyInt (cooldown_remaining now channel_last channel_cooldown))))
    ∧ (cooldown_remaining now user_last user_cooldown ≤ 0 →
        cooldown_remaining now channel_last channel_cooldown ≤ 0 →
        check_cooldowns now user_last channel_last user_cooldown channel_cooldown
          = none) := by
  have hnn : ∀ (l : Option ℚ) (cd : Int), 0 ≤ cooldown_remaining now l cd := by
    intro l cd
    cases l with
    | none => exact le_refl 0
    | some t => exact le_max_left 0 _
  refine ⟨hnn _ _, hnn _ _, ?_, ?_, ?_⟩
  · intro hu
    simp only [check_cooldowns]
    rw [if_pos hu]
  · intro hu hc
    simp only [check_cooldowns]
    rw [if_neg (not_lt.mpr hu), if_pos hc]
  · intro hu hc
    simp only [check_cooldowns]
    rw [if_neg (not_lt.mpr hu), if_neg (not_lt.mpr hc)]

/-- Counterexample to C8 as stated: actor remaining 2, channel remaining
8; the check returns the actor message with 2 seconds, not the larger
unmet requirement of 8. -/
theorem check_cooldowns_larger_cex :
    cooldown_remaining 10 (some 9) 3 = 2
    ∧ cooldown_remaining 10 (some 9) 9 = 8
    ∧ check_cooldowns 10 (some 9) (some 9) 3 9 = some (user_cooldown_message 2)
    ∧ user_cooldown_message 2 ≠ channel_cooldown_message 8
    ∧ user_cooldown_message 2 ≠ user_cooldown_message 8 := by
  have hu : cooldown_remaining 10 (some 9) 3 = 2 := by
    simp only [cooldown_remaining]
    rw [max_eq_right (by norm_num)]
    norm_num
  have hc : cooldown_remaining 10 (some 9) 9 = 8 := by
    simp only [cooldown_remaining]
    rw [max_eq_right (by norm_num)]
    norm_num
  refine ⟨hu, hc, ?_, by decide, by decide⟩
  simp only [check_cooldowns]
  rw [if_pos (by rw [hu]; norm_num)]
  rw [hu]
  have h2 : pyInt 2 = 2 := by
    simp [pyInt]
  rw [h2]

/-- Witness for C8 (amended): an actor whose last request was 5 seconds
ago under a 10-second cooldown gets the actor message with remaining 5. -/
theorem check_cooldowns_first_unmet_witness :
    check_cooldowns 100 (some 95) none 10 10
      = some (user_cooldown_message
          (pyInt (cooldown_remaining 100 (some 95) 10)))
    ∧ cooldown_remaining 100 (some 95) 10 = 5
    ∧ check_cooldowns 111 (some 95) none 10 10 = none := by
  have h5 : cooldown_remaining 100 (some 95) 10 = 5 := by
    simp only [cooldown_remaining]
    rw [max_eq_right (by norm_num)]
    norm_num
  have h0 : cooldown_remaining 111 (some 95) 10 = 0 := by
    simp only [cooldown_remaining]
    rw [max_eq_left (by norm_num)]
  refine ⟨?_, h5, ?_⟩
  · exact (check_cooldowns_first_unmet 100 (some 95) none 10 10).2.2.1
      (by rw [h5]; norm_num)
  · exact (check_cooldowns_first_unmet 111 (some 95) none 10 10).2.2.2.2
      (by rw [h0]) (by rw [show cooldown_remaining 111 none 10 = 0 from rfl])

/-- One conversational turn as stored in a session document; only the
`role` entry steers trimming. -/
structure Msg where
  role : Option String
  content : String
deriving Repr, DecidableEq

/-- Count of user-authored turns in a message list. -/
def user_turn_count : List Msg → Nat
  | [] => 0
  | m :: rest => (if m.role = some "user" then 1 else 0) + user_turn_count rest

/-- Inner loop of `AIChat._trim_messages` over the reversed message
list, carrying the running user-turn count. -/
def trim_messages_rev (max_turns : Int) (user_turns : Int) : List Msg → List Msg
  | [] => []
  | m :: rest =>
      let ut := if m.role = some "user" then user_turns + 1 else user_turns
      if ut ≥ max_turns then [m] else m :: trim_messages_rev max_turns ut rest

/-- `AIChat._trim_messages`: walk the reversed history accumulating until
the user-turn cap is reached inclusively, then restore original order. -/
def trim_messages (messages : List Msg) (max_turns : Int) : List Msg :=
  if max_turns ≤ 0 then []
  else (trim_messages_rev max_turns 0 messages.reverse).reverse

theorem user_turn_count_append (l₁ l₂ : List Msg) :
    user_turn_count (l₁ ++ l₂) = user_turn_count l₁ + user_turn_count l₂ := by
  induction l₁ with
  | nil => simp [user_turn_count]
  | cons m rest ih =>
    simp only [List.cons_append, user_turn_count, List.append_eq, ih]
    omega

theorem user_turn_count_reverse (l : List Msg) :
    user_turn_count l.reverse = user_turn_count l := by
  induction l with
  | nil => rfl
  | cons m rest ih =>
    simp only [List.reverse_cons, user_turn_count_append, ih, user_turn_count]
    omega

theorem trim_messages_rev_spec (max_turns : Int) (l : List Msg) :
    ∀ ut, ut < max_turns →
      (∃ rest, l = trim_messages_rev max_turns ut l ++ rest)
      ∧ (user_turn_count (trim_messages_rev max_turns ut l) : Int)
          = min (max_turns - ut) (user_turn_count l)
      ∧ (trim_messages_rev max_turns ut l = l
         ∨ ∃ pre lastm, trim_messages_rev max_turns ut l = pre ++ [lastm]
             ∧ lastm.role = some "user"
             ∧ (user_turn_count (trim_messages_rev max_turns ut l) : Int)
                 = max_turns - ut) := by
  induction l with
  | nil =>
    intro ut h
    refine ⟨⟨[], rfl⟩, ?_, Or.inl rfl⟩
    show ((user_turn_count [] : Nat) : Int) = min (max_turns - ut) (user_turn_count ([] : List Msg))
    simp only [user_turn_count]
    omega
  | cons m rest ih =>
    intro ut h
    by_cases hU : m.role = some "user"
    · by_cases hstop : ut + 1 ≥ max_turns
      · have heq : trim_messages_rev max_turns ut (m :: rest) = [m] := by
          simp only [trim_messages_rev]
          rw [if_pos hU, if_pos hstop]
        rw [heq]
        refine ⟨⟨rest, rfl⟩, ?_, Or.inr ⟨[], m, rfl, hU, ?_⟩⟩
        · simp only [user_turn_count, if_pos hU]
          push_cast
          omega
        · simp only [user_turn_count, if_pos hU]
          push_cast
          omega
      · have heq : trim_messages_rev max_turns ut (m :: rest)
            = m :: trim_messages_rev max_turns (ut + 1) rest := by
          simp only [trim_messages_rev]
          rw [if_pos hU, if_neg hstop]
        rcases ih (ut + 1) (by omega) with ⟨⟨r, hr⟩, hcount, hdisj⟩
        rw [heq]
        refine ⟨⟨r, by rw [List.cons_append, ← hr]⟩, ?_, ?_⟩
        · simp only [user_turn_count, if_pos hU]
          push_cast
          omega
        · rcases hdisj with hTeq | ⟨pre, lastm, hT, hrole, hcnt⟩
          · exact Or.inl (by rw [hTeq])
          · refine Or.inr ⟨m :: pre, lastm, by rw [hT, List.cons_append], hrole, ?_⟩
            simp only [user_turn_count, if_pos hU]
            push_cast
            omega
    · have heq : trim_messages_rev max_turns ut (m :: rest)
          = m :: trim_messages_rev max_turns ut rest := by
        simp only [trim_messages_rev]
        rw [if_neg hU, if_neg (by omega : ¬ ut ≥ max_turns)]
      rcases ih ut h with ⟨⟨r, hr⟩, hcount, hdisj⟩
      rw [heq]
      refine ⟨⟨r, by rw [List.cons_append, ← hr]⟩, ?_, ?_⟩
      · simp only [user_turn_count, if_neg hU]
        push_cast
        omega
      · rcases hdisj with hTeq | ⟨pre, lastm, hT, hrole, hcnt⟩
        · exact Or.inl (by rw [hTeq])
        · refine Or.inr ⟨m :: pre, lastm, by rw [hT, List.cons_append], hrole, ?_⟩
          simp only [user_turn_count, if_neg hU]
          push_cast
          omega

/-- C9: a non-positive cap trims to nothing; otherwise the result is a
suffix of the history (order preserved) holding `min cap total` user
turns, and it is either the whole history or starts at the user turn that
reached the cap. -/
theorem trim_messages_spec (messages : List Msg) (max_turns : Int) :
    (max_turns ≤ 0 → trim_messages messages max_turns = [])
    ∧ (0 < max_turns →
        (∃ pre, messages = pre ++ trim_messages messages max_turns)
        ∧ (user_turn_count (trim_messages messages max_turns) : Int)
            = min max_turns (user_turn_count messages)
        ∧ (trim_messages messages max_turns = messages
           ∨ ∃ hd tl, trim_messages messages max_turns = hd :: tl
               ∧ hd.role = some "user"
               ∧ (user_turn_count (trim_messages messages max_turns) : Int)
                   = max_turns)) := by
  constructor
  · intro h
    simp only [trim_messages]
    rw [if_pos h]
  · intro h
    have htrim : trim_messages messages max_turns
        = (trim_messages_rev max_turns 0 messages.reverse).reverse := by
      simp only [trim_messages]
      rw [if_neg (by omega)]
    rcases trim_messages_rev_spec max_turns messages.reverse 0 (by omega) with
      ⟨⟨r, hr⟩, hcount, hdisj⟩
    refine ⟨?_, ?_, ?_⟩
    · refine ⟨r.reverse, ?_⟩
      rw [htrim]
      have := congrArg List.reverse hr
      rw [List.reverse_reverse, List.reverse_append] at this
      exact this
    · rw [htrim, user_turn_count_reverse]
      rw [user_turn_count_reverse] at hcount
      rw [hcount]
      omega
    · rcases hdisj with hTeq | ⟨pre, lastm, hT, hrole, hcnt⟩
      · refine Or.inl ?_
        rw [htrim, hTeq, List.reverse_reverse]
      · refine Or.inr ⟨lastm, pre.reverse, ?_, hrole, ?_⟩
        · rw [htrim, hT, List.reverse_append]
          rfl
        · rw [htrim, user_turn_count_reverse, hcnt]
          omega

/-- A user turn for the demo history. -/
def demoUserTurn (c : String) : Msg := { role := some "user", content := c }

/-- An assistant turn for the demo history. -/
def demoBotTurn (c : String) : Msg := { role := some "assistant", content := c }

/-- Ten-message history with five user turns. -/
def demoHistory : List Msg :=
  [demoUserTurn "u1", demoBotTurn "a1", demoUserTurn "u2", demoBotTurn "a2",
   demoUserTurn "u3", demoBotTurn "a3", demoUserTurn "u4", demoBotTurn "a4",
   demoUserTurn "u5", demoBotTurn "a5"]

/-- Witness for C9: trimming the ten-message five-user-turn history with
cap 2 keeps a suffix holding exactly two user turns, starting at the user
turn that reached the cap. -/
theorem trim_messages_spec_witness :
    (∃ pre, demoHistory = pre ++ trim_messages demoHistory 2)
    ∧ (user_turn_count (trim_messages demoHistory 2) : Int)
        = min 2 (user_turn_count demoHistory)
    ∧ (trim_messages demoHistory 2 = demoHistory
       ∨ ∃ hd tl, trim_messages demoHistory 2 = hd :: tl
           ∧ hd.role = some "user"
           ∧ (user_turn_count (trim_messages demoHistory 2) : Int) = 2) :=
  (trim_messages_spec demoHistory 2).2 (by decide)

/-- Python exception classes the dispatcher distinguishes: `ValueError`
together with its subclasses (`binascii.Error`, `UnicodeDecodeError`,
PyNaCl size-check errors) versus every other exception (`KeyError`,
`nacl.exceptions.CryptoError`). -/
inductive PyExc
  | valueError (msg : String)
  | otherExc (msg : String)
deriving Repr, DecidableEq

/-- `ENC_SECRET_ENV` from `utils/ai_keys.py`. -/
def ENC_SECRET_ENV : String := "LOGIQ_AI_KEY_ENC_SECRET"

/-- Membership in the standard base64 alphabet. -/
def isB64Char (c : Char) : Bool :=
  (decide ('A' ≤ c) && decide (c ≤ 'Z'))
    || (decide ('a' ≤ c) && decide (c ≤ 'z'))
    || (decide ('0' ≤ c) && decide (c ≤ '9'))
    || c == '+' || c == '/'

/-- 6-bit value of a base64 alphabet character. -/
def b64CharVal (c : Char) : Nat :=
  if 'A' ≤ c ∧ c ≤ 'Z' then c.toNat - 65
  else if 'a' ≤ c ∧ c ≤ 'z' then c.toNat - 97 + 26
  else if '0' ≤ c ∧ c ≤ '9' then c.toNat - 48 + 52
  else if c = '+' then 62 else 63

/-- Pack 6-bit groups into bytes, most significant bits first, the way
`binascii.a2b_base64` consumes full and final groups. -/
def b64Pack : List Nat → List Nat
  | a :: b :: c :: d :: rest =>
      (a * 4 + b / 16) :: ((b % 16) * 16 + c / 4) :: ((c % 4) * 64 + d) :: b64Pack rest
  | [a, b] => [a * 4 + b / 16]
  | [a, b, c] => [a * 4 + b / 16, (b % 16) * 16 + c / 4]
  | _ => []

/-- `base64.b64decode` on a stored payload string, modelled from the
documented behaviour of `binascii.a2b_base64`: characters outside the
alphabet are discarded, a final group of one data character or data left
without matching padding raises `binascii.Error`, which subclasses
`ValueError`. -/
def b64decode (s : String) : Except PyExc (List Nat) :=
  let data := (s.toList.filter isB64Char).map b64CharVal
  let pads := (s.toList.filter (fun c => c == '=')).length
  if data.length % 4 == 1 then
    Except.error (PyExc.valueError "Invalid base64-encoded string")
  else if (data.length + pads) % 4 != 0 then
    Except.error (PyExc.valueError "Incorrect padding")
  else
    Except.ok (b64Pack data)

/-- Base64 alphabet character of a 6-bit value. -/
def b64CharOfVal (v : Nat) : Char :=
  if v < 26 then Char.ofNat (65 + v)
  else if v < 52 then Char.ofNat (97 + v - 26)
  else if v < 62 then Char.ofNat (48 + v - 52)
  else if v = 62 then '+' else '/'

/-- Split bytes into 6-bit groups, most significant bits first. -/
def b64Unpack : List Nat → List Nat
  | x :: y :: z :: rest =>
      (x / 4) :: ((x % 4) * 16 + y / 16) :: ((y % 16) * 4 + z / 64) :: (z % 64)
        :: b64Unpack rest
  | [x, y] => [x / 4, (x % 4) * 16 + y / 16, (y % 16) * 4]
  | [x] => [x / 4, (x % 4) * 16]
  | [] => []

/-- `base64.b64encode` of a byte list, used to build demo payloads the
way `encrypt_api_key` stores them. -/
def b64encode (bs : List Nat) : String :=
  let chars := (b64Unpack bs).map b64CharOfVal
  let pad := if bs.length % 3 = 1 then "==" else if bs.length % 3 = 2 then "=" else ""
  String.mk chars ++ pad

/-- `hashlib.sha256(...).digest()` at the opaque-capability boundary: a
32-byte digest; the digest function itself is idealized. -/
def sha256Bytes (s : String) : List Nat :=
  (List.range 32).map (fun i =>
    (s.toList.foldl (fun a c => a * 31 + c.toNat) (i + 7)) % 256)

/-- `_derive_key` from `utils/ai_keys.py`. -/
def derive_key (secret_value : String) : List Nat := sha256Bytes secret_value

/-- `_get_secret_key`: raises `ValueError` when the environment variable
is unset or empty (`if not secret_value`). -/
def get_secret_key (env : Option String) : Except PyExc (List Nat) :=
  match env with
  | none => Except.error (PyExc.valueError (ENC_SECRET_ENV ++ " is not set"))
  | some v =>
      if v = "" then Except.error (PyExc.valueError (ENC_SECRET_ENV ++ " is not set"))
      else Except.ok (derive_key v)

/-- Idealized 16-byte authentication tag of libsodium secretbox. -/
def macTag (key nonce msg : List Nat) : List Nat :=
  (List.range 16).map (fun i =>
    (key.sum * 3 + nonce.sum * 5 + msg.sum * 7 + msg.length + i) % 256)

/-- `SecretBox.decrypt` at the opaque-capability boundary: PyNaCl checks
the nonce size first and raises its `ValueError` subclass on a wrong
size; an authentication failure raises `CryptoError`, which is not a
`ValueError`. -/
def secretbox_open (key nonce ct : List Nat) : Except PyExc (List Nat) :=
  if nonce.length ≠ 24 then
    Except.error (PyExc.valueError "The nonce must be exactly 24 bytes long")
  else if ct.take 16 = macTag key nonce (ct.drop 16) then
    Except.ok (ct.drop 16)
  else
    Except.error (PyExc.otherExc "Decryption failed. Ciphertext failed verification")

/-- `bytes.decode("utf-8")` restricted to ASCII payloads; a non-ASCII
byte models a decode failure, and `UnicodeDecodeError` subclasses
`ValueError`. -/
def utf8Decode (bs : List Nat) : Except PyExc String :=
  if bs.all (fun b => b < 128) then
    Except.ok (String.mk (bs.map Char.ofNat))
  else Except.error (PyExc.valueError "invalid start byte")

/-- `decrypt_api_key` from `utils/ai_keys.py`: derive the key from the
environment, read the two payload entries (`KeyError` when missing),
base64-decode them, and open the secretbox. -/
def decrypt_api_key (env : Option String) (payload : EncPayload) :
    Except PyExc String := do
  let key ← get_secret_key env
  let nonceStr ← match payload.nonce with
    | none => Except.error (PyExc.otherExc "KeyError: nonce")
    | some s => Except.ok s
  let ctStr ← match payload.ciphertext with
    | none => Except.error (PyExc.otherExc "KeyError: ciphertext")
    | some s => Except.ok s
  let nonce ← b64decode nonceStr
  let ct ← b64decode ctStr
  let msg ← secretbox_open key nonce ct
  utf8Decode msg

/-- JSON value produced by `json.loads`, as far as the failover loop
inspects it. -/
inductive JVal
  | null
  | bool (b : Bool)
  | num (n : Int)
  | str (s : String)
  | arr (xs : List JVal)
  | obj (fields : List (String × JVal))

/-- Python truthiness of a parsed JSON value. -/
def jTruthy : JVal → Bool
  | JVal.null => false
  | JVal.bool b => b
  | JVal.num n => decide (n ≠ 0)
  | JVal.str s => decide (s ≠ "")
  | JVal.arr xs => !xs.isEmpty
  | JVal.obj fs => !fs.isEmpty

/-- Dictionary lookup on a JSON object. -/
def jLookup : List (String × JVal) → String → Option JVal
  | [], _ => none
  | (k, v) :: rest, key => if k = key then some v else jLookup rest key

/-- One string-key subscription step; a non-dict raises
`TypeError`/`KeyError`, modelled as `none`. -/
def jGetKey : JVal → String → Option JVal
  | JVal.obj fs, key => jLookup fs key
  | _, _ => none

/-- One `[0]` subscription step; a list yields its head (`IndexError`
when empty), a string yields its first character, anything else raises. -/
def jGetIdx0 : JVal → Option JVal
  | JVal.arr [] => none
  | JVal.arr (x :: _) => some x
  | JVal.str s =>
      match s.toList with
      | [] => none
      | c :: _ => some (JVal.str (String.mk [c]))
  | _ => none

/-- `data["choices"][0]["message"]["content"]` with the surrounding
`except (KeyError, IndexError, TypeError)` modelled as `none`. -/
def extract_content (data : JVal) : Option JVal :=
  (jGetKey data "choices").bind (fun c =>
    (jGetIdx0 c).bind (fun m =>
      (jGetKey m "message").bind (fun mm => jGetKey mm "content")))

/-- Python string slicing `s[:n]` by code points. -/
def pyTruncate (s : String) (n : Nat) : String := String.mk (s.toList.take n)

/-- Error-message extraction of `_call_openrouter` for non-success
responses: `data.get("error") or {}`, then `.get("message")` of a dict
or the string itself, with fallback to the truncated raw text or a stock
message.  The upstream contract types `message` as a string; a truthy
non-string value there is outside the model. -/
def extract_error_message (data : Option JVal) (text : String) : String :=
  let fallback := if text ≠ "" then pyTruncate text MAX_STATUS_TEXT else "OpenRouter error"
  match data with
  | some (JVal.obj fs) =>
      let ei := match jLookup fs "error" with
        | some v => if jTruthy v then v else JVal.obj []
        | none => JVal.obj []
      match ei with
      | JVal.obj efs =>
          match jLookup efs "message" with
          | some (JVal.str s) => if s ≠ "" then s else fallback
          | _ => fallback
      | JVal.str s => if s ≠ "" then s else fallback
      | _ => fallback
  | _ => fallback

/-- Numeric value of a digit string. -/
def natOfDigits (l : List Char) : Nat :=
  l.foldl (fun a c => a * 10 + (c.toNat - 48)) 0

/-- Python `float(...)` on a Retry-After header value: surrounding
spaces, an optional sign, digits with an optional fraction; anything
else raises `ValueError` (`none`).  Exponents and the special values are
outside the model. -/
def pyParseFloat (s : String) : Option ℚ :=
  let t := ((s.toList.dropWhile (fun c => c = ' ')).reverse.dropWhile
    (fun c => c = ' ')).reverse
  let sgn : ℚ := match t with
    | '-' :: _ => -1
    | _ => 1
  let rest := match t with
    | '-' :: r => r
    | '+' :: r => r
    | r => r
  let intPart := rest.takeWhile Char.isDigit
  let after := rest.drop intPart.length
  match after with
  | [] =>
      if intPart.isEmpty then none
      else some (sgn * (natOfDigits intPart : ℚ))
  | '.' :: frac =>
      if frac.all Char.isDigit && (!intPart.isEmpty || !frac.isEmpty) then
        some (sgn * ((natOfDigits intPart : ℚ)
          + (natOfDigits frac : ℚ) / ((10 : ℚ) ^ frac.length)))
      else none
  | _ => none

/-- Cooldown seconds chosen on a 429: `int(float(retry_after))` when the
header is present, truthy and parses, else the 30-second default. -/
def retry_after_cooldown (retryAfter : Option String) : Int :=
  match retryAfter with
  | none => DEFAULT_RATE_LIMIT_COOLDOWN_SECONDS
  | some ra =>
      if ra = "" then DEFAULT_RATE_LIMIT_COOLDOWN_SECONDS
      else match pyParseFloat ra with
        | some q => pyInt q
        | none => DEFAULT_RATE_LIMIT_COOLDOWN_SECONDS

/-- `AIChat._set_key_error` field update: record the error, then
`if cooldown_seconds:` (false for `None` and for `0`) stamp the
cooldown, then optionally disable. -/
def set_key_error (doc : KeyDoc) (code : Int) (message : String)
    (cooldown_seconds : Option Int) (disable : Bool) (now : Int) : KeyDoc :=
  let d := { doc with
    last_error_code := some code
    last_error := some (pyTruncate message MAX_STATUS_TEXT)
    last_error_at := some now
    updated_at := some now }
  let d := match cooldown_seconds with
    | some cs => if cs ≠ 0 then { d with cooldown_until := some (now + cs) } else d
    | none => d
  if disable then { d with enabled := some false } else d

/-- `db.update_ai_api_key`: apply a field update to the stored documents
matching `(guild_id, name)`. -/
def update_store (store : List KeyDoc) (g : Int) (n : String)
    (f : KeyDoc → KeyDoc) : List KeyDoc :=
  store.map (fun d => if d.guild_id = g ∧ d.name = n then f d else d)

/-- One upstream call outcome as surfaced by `request_json`: either a
transport-level exception or `(status, parsed_body, raw_text,
Retry-After header)`. -/
inductive Upstream
  | transportError
  | resp (status : Int) (data : Option JVal) (text : String)
      (retryAfter : Option String)

/-- Outcome of a dispatch: the extracted completion (any JSON value),
the user-facing error, and the credential store after all updates. -/
structure DispatchResult where
  text : Option JVal
  error : Option String
  store : List KeyDoc

/-- Shared error-status handling of the failover loop after the success
check: 429 and 5xx record a cooldown and advance, 401/402 disable and
advance, anything else records a 30-second cooldown and halts. -/
def handle_error_status (g : Int) (n : String) (store1 : List KeyDoc)
    (status : Int) (data : Option JVal) (text : String)
    (retryAfter : Option String) (now : Int) :
    Sum (List KeyDoc × String) DispatchResult :=
  let errm := extract_error_message data text
  if status = 429 then
    Sum.inl (update_store store1 g n
        (fun d => set_key_error d status errm
          (some (retry_after_cooldown retryAfter)) false now),
      "AI rate limit reached. Retrying with another key.")
  else if status = 401 ∨ status = 402 then
    Sum.inl (update_store store1 g n
        (fun d => set_key_error d status errm none true now),
      "AI key disabled due to authorization or credit error.")
  else if status ≥ 500 then
    Sum.inl (update_store store1 g n
        (fun d => set_key_error d status errm
          (some DEFAULT_SERVER_ERROR_COOLDOWN_SECONDS) false now),
      "OpenRouter server error. Retrying with another key.")
  else
    Sum.inr ⟨none, some errm,
      update_store store1 g n
        (fun d => set_key_error d status errm
          (some DEFAULT_RATE_LIMIT_COOLDOWN_SECONDS) false now)⟩

/-- The failover loop of `AIChat._call_openrouter` over the ranked
candidates.  `responses` enumerates the successive outcomes of
`request_json`; an exhausted list stands for a transport failure.
`self._now()` is held fixed at `now` during the dispatch; logging and
the operator notification embed no credential state and are not
modelled. -/
def dispatch_loop (env : Option String) (now : Int) :
    List Candidate → List KeyDoc → List Upstream → String → DispatchResult
  | [], store, _, last_error => ⟨none, some last_error, store⟩
  | c :: rest, store, responses, _last_error =>
    match decrypt_api_key env c.doc.encrypted_api_key with
    | Except.error (PyExc.valueError m) => ⟨none, some m, store⟩
    | Except.error (PyExc.otherExc _) =>
        dispatch_loop env now rest
          (update_store store c.doc.guild_id c.doc.name
            (fun d => set_key_error d 0 "Key decryption failed" none true now))
          responses "AI key decryption failed."
    | Except.ok _ =>
        let store1 := update_store store c.doc.guild_id c.doc.name
          (fun d => update_key_usage d c now)
        let transport := fun (rs : List Upstream) =>
          dispatch_loop env now rest
            (update_store store1 c.doc.guild_id c.doc.name
              (fun d => set_key_error d 0 "OpenRouter request failed"
                (some DEFAULT_SERVER_ERROR_COOLDOWN_SECONDS) false now))
            rs "OpenRouter request failed. Please try again."
        match responses with
        | [] => transport []
        | Upstream.transportError :: rs => transport rs
        | Upstream.resp status data text retryAfter :: rs =>
          match data with
          | some d =>
              if status = 200 ∧ jTruthy d = true then
                match extract_content d with
                | some content => ⟨some content, none, store1⟩
                | none =>
                    dispatch_loop env now rest
                      (update_store store1 c.doc.guild_id c.doc.name
                        (fun x => set_key_error x status
                          "OpenRouter response missing completion content."
                          (some DEFAULT_SERVER_ERROR_COOLDOWN_SECONDS) false now))
                      rs "OpenRouter response missing completion content."
              else
                match handle_error_status c.doc.guild_id c.doc.name store1
                    status (some d) text retryAfter now with
                | Sum.inl (st, le) => dispatch_loop env now rest st rs le
                | Sum.inr res => res
          | none =>
              match handle_error_status c.doc.guild_id c.doc.name store1
                  status none text retryAfter now with
              | Sum.inl (st, le) => dispatch_loop env now rest st rs le
              | Sum.inr res => res

/-- `AIChat._call_openrouter`: select and rank candidates, then run the
failover loop over the first `MAX_KEY_ATTEMPTS` of them. -/
def call_openrouter (env : Option String) (store : List KeyDoc) (now : Int)
    (responses : List Upstream) : DispatchResult :=
  let candidates := select_key_candidates store now
  if candidates = [] then
    ⟨none, some "No available AI keys. Ask an admin to add or enable keys.", store⟩
  else
    dispatch_loop env now (candidates.take MAX_KEY_ATTEMPTS) store responses
      "OpenRouter request failed."

/-- Secret-box key derived from the demo environment secret. -/
def demoKeyBytes : List Nat := derive_key "s"

/-- 24-byte demo nonce. -/
def demoNonceBytes : List Nat := List.replicate 24 0

/-- The plaintext API key "sk" as ASCII bytes. -/
def demoMsgBytes : List Nat := [115, 107]

/-- Genuine secretbox ciphertext of the demo key: tag then message. -/
def demoCtBytes : List Nat := macTag demoKeyBytes demoNonceBytes demoMsgBytes ++ demoMsgBytes

/-- Payload stored the way `encrypt_api_key` would store the demo key. -/
def demoGoodPayload : EncPayload :=
  { nonce := some (b64encode demoNonceBytes), ciphertext := some (b64encode demoCtBytes) }

/-- Candidate wrapper used to drive the failover loop in concrete runs. -/
def mkDemoCand (d : KeyDoc) : Candidate :=
  { doc := d, score := demoTieScore, minute_start := 0, minute_count := 0,
    day_start := 0, day_count := 0, last_used_at := d.last_used_at }

/-- Eligible demo credential whose stored payload decrypts to "sk". -/
def demoGoodDoc : KeyDoc :=
  { demoEligibleDoc with name := "good", encrypted_api_key := demoGoodPayload }

/-- Candidate for `demoGoodDoc`. -/
def demoGoodCand : Candidate := mkDemoCand demoGoodDoc

/-- Credential whose stored payload has a corrupt base64 nonce. -/
def demoCorruptDoc : KeyDoc :=
  { demoEligibleDoc with
    name := "corrupt"
    encrypted_api_key := { nonce := some "A", ciphertext := some "" } }

/-- Candidate for `demoCorruptDoc`. -/
def demoCorruptCand : Candidate := mkDemoCand demoCorruptDoc

/-- Credential whose stored payload lacks the `nonce` entry. -/
def demoMissingNonceDoc : KeyDoc :=
  { demoEligibleDoc with
    name := "m"
    encrypted_api_key := { nonce := none, ciphertext := some "" } }

/-- Candidate for `demoMissingNonceDoc`. -/
def demoMissingNonceCand : Candidate := mkDemoCand demoMissingNonceDoc

/-- C3 (amended): a decryption failure raising `ValueError` — the unset
encryption-secret configuration error, but also per-credential
corruption that fails base64 decoding or a size check — aborts the whole
dispatch with that message and no store change; a decryption failure
raising any other exception (missing payload entry, ciphertext
authentication failure) is recorded on the credential, disables it, and
the loop advances to the next candidate. -/
theorem dispatch_decrypt_failure_split (env : Option String) (now : Int)
    (c : Candidate) (rest : List Candidate) (store : List KeyDoc)
    (responses : List Upstream) (last_error : String) :
    (∀ m, decrypt_api_key env c.doc.encrypted_api_key
          = Except.error (PyExc.valueError m) →
        dispatch_loop env now (c :: rest) store responses last_error
          = ⟨none, some m, store⟩)
    ∧ (∀ m, decrypt_api_key env c.doc.encrypted_api_key
          = Except.error (PyExc.otherExc m) →
        dispatch_loop env now (c :: rest) store responses last_error
          = dispatch_loop env now rest
              (update_store store c.doc.guild_id c.doc.name
                (fun d => set_key_error d 0 "Key decryption failed" none true now))
              responses "AI key decryption failed.")
    ∧ (∀ d : KeyDoc,
        (set_key_error d 0 "Key decryption failed" none true now).enabled = some false
        ∧ (set_key_error d 0 "Key decryption failed" none true now).last_error
            = some "Key decryption failed"
        ∧ (set_key_error d 0 "Key decryption failed" none true now).last_error_code
            = some 0
        ∧ (set_key_error d 0 "Key decryption failed" none true now).cooldown_until
            = d.cooldown_until)
    ∧ (env = none →
        decrypt_api_key env c.doc.encrypted_api_key
          = Except.error (PyExc.valueError (ENC_SECRET_ENV ++ " is not set"))) := by
  refine ⟨?_, ?_, ?_, ?_⟩
  · intro m hm
    simp only [dispatch_loop, hm]
  · intro m hm
    simp only [dispatch_loop, hm]
  · intro d
    exact ⟨rfl, rfl, rfl, rfl⟩
  · rintro rfl
    rfl

/-- Counterexample to C3 as stated: a corrupt stored payload (invalid
base64 nonce) raises `binascii.Error`, a `ValueError`, so the dispatch
aborts with that message, leaving the store untouched — the credential is
not disabled, no error is recorded, and the next candidate is never
attempted. -/
theorem corrupt_payload_aborts_dispatch_cex :
    decrypt_api_key (some "s") demoCorruptDoc.encrypted_api_key
      = Except.error (PyExc.valueError "Invalid base64-encoded string")
    ∧ dispatch_loop (some "s") 0 [demoCorruptCand, demoFreshCand]
        [demoCorruptDoc, demoFreshDoc] [] "E"
      = ⟨none, some "Invalid base64-encoded string", [demoCorruptDoc, demoFreshDoc]⟩ :=
  ⟨by rfl, by rfl⟩

/-- Witness for C3 (amended): an unset environment aborts the dispatch
with the configuration message; a missing `nonce` entry (a `KeyError`,
not a `ValueError`) records the error, disables the credential and
advances. -/
theorem dispatch_decrypt_failure_split_witness :
    dispatch_loop none 0 [demoMissingNonceCand] [demoMissingNonceDoc] [] "E"
      = ⟨none, some (ENC_SECRET_ENV ++ " is not set"), [demoMissingNonceDoc]⟩
    ∧ dispatch_loop (some "s") 0 [demoMissingNonceCand] [demoMissingNonceDoc] [] "E"
      = dispatch_loop (some "s") 0 []
          (update_store [demoMissingNonceDoc] demoMissingNonceCand.doc.guild_id
            demoMissingNonceCand.doc.name
            (fun d => set_key_error d 0 "Key decryption failed" none true 0))
          [] "AI key decryption failed."
    ∧ (set_key_error demoMissingNonceDoc 0 "Key decryption failed" none true 0).enabled
        = some false :=
  ⟨(dispatch_decrypt_failure_split none 0 demoMissingNonceCand [] [demoMissingNonceDoc]
      [] "E").1 (ENC_SECRET_ENV ++ " is not set") (by rfl),
   (dispatch_decrypt_failure_split (some "s") 0 demoMissingNonceCand []
      [demoMissingNonceDoc] [] "E").2.1 "KeyError: nonce" (by rfl),
   ((dispatch_decrypt_failure_split (some "s") 0 demoMissingNonceCand []
      [demoMissingNonceDoc] [] "E").2.2.1 demoMissingNonceDoc).1⟩

/-- C5: a response whose status is none of 200, 429, 401, 402 and below
500 makes the loop record the extracted error message with a 30-second
cooldown on the attempted credential and halt, returning no text and
that message; the remaining candidates and responses are never used. -/
theorem unclassified_status_halts (env : Option String) (now : Int)
    (c : Candidate) (rest : List Candidate) (store : List KeyDoc)
    (status : Int) (data : Option JVal) (text : String)
    (retryAfter : Option String) (rs : List Upstream) (last_error : String)
    (apiKey : String)
    (hdec : decrypt_api_key env c.doc.encrypted_api_key = Except.ok apiKey)
    (h200 : status ≠ 200) (h429 : status ≠ 429) (h401 : status ≠ 401)
    (h402 : status ≠ 402) (h500 : status < 500) :
    dispatch_loop env now (c :: rest) store
        (Upstream.resp status data text retryAfter :: rs) last_error
      = ⟨none, some (extract_error_message data text),
          update_store
            (update_store store c.doc.guild_id c.doc.name
              (fun d => update_key_usage d c now))
            c.doc.guild_id c.doc.name
            (fun d => set_key_error d status (extract_error_message data text)
              (some DEFAULT_RATE_LIMIT_COOLDOWN_SECONDS) false now)⟩
    ∧ (∀ d : KeyDoc,
        (set_key_error d status (extract_error_message data text)
          (some DEFAULT_RATE_LIMIT_COOLDOWN_SECONDS) false now).cooldown_until
          = some (now + 30)) := by
  constructor
  · cases data with
    | none =>
        simp only [dispatch_loop, hdec, handle_error_status]
        rw [if_neg h429, if_neg (fun h => Or.elim h h401 h402),
          if_neg (not_le.mpr h500)]
    | some d =>
        simp only [dispatch_loop, hdec]
        rw [if_neg (fun h => h200 h.1)]
        simp only [handle_error_status]
        rw [if_neg h429, if_neg (fun h => Or.elim h h401 h402),
          if_neg (not_le.mpr h500)]
  · intro d
    rfl

/-- Witness for C5: a 404 on the demo credential halts the dispatch with
the attempt error and a 30-second cooldown, ignoring remaining state. -/
theorem unclassified_status_halts_witness :
    dispatch_loop (some "s") 0 [demoGoodCand] [demoGoodDoc]
        [Upstream.resp 404 none "bad request" none] "E"
      = ⟨none, some (extract_error_message none "bad request"),
          update_store
            (update_store [demoGoodDoc] demoGoodCand.doc.guild_id
              demoGoodCand.doc.name
              (fun d => update_key_usage d demoGoodCand 0))
            demoGoodCand.doc.guild_id demoGoodCand.doc.name
            (fun d => set_key_error d 404 (extract_error_message none "bad request")
              (some DEFAULT_RATE_LIMIT_COOLDOWN_SECONDS) false 0)⟩
    ∧ (∀ d : KeyDoc,
        (set_key_error d 404 (extract_error_message none "bad request")
          (some DEFAULT_RATE_LIMIT_COOLDOWN_SECONDS) false 0).cooldown_until
          = some (0 + 30)) :=
  unclassified_status_halts (some "s") 0 demoGoodCand [] [demoGoodDoc] 404 none
    "bad request" none [] "E" "sk" (by rfl) (by decide) (by decide) (by decide)
    (by decide) (by decide)

/-- C10 (amended): a cooldown duration of zero or `None` leaves
`cooldown_until` unchanged while the error fields are still written — in
particular a 429 whose Retry-After parses to `0` records no cooldown even
after the usage reservation — and any nonzero duration, negative ones
included, writes `cooldown_until = now + duration`. -/
theorem set_key_error_cooldown_rules :
    (∀ (d : KeyDoc) (code : Int) (msg : String) (cs : Int) (dis : Bool) (now : Int),
        (set_key_error d code msg (some cs) dis now).cooldown_until
          = if cs = 0 then d.cooldown_until else some (now + cs))
    ∧ (∀ (d : KeyDoc) (code : Int) (msg : String) (dis : Bool) (now : Int),
        (set_key_error d code msg none dis now).cooldown_until = d.cooldown_until)
    ∧ (∀ (d : KeyDoc) (code : Int) (msg : String) (now : Int),
        (set_key_error d code msg (some 0) false now).last_error_code = some code
        ∧ (set_key_error d code msg (some 0) false now).last_error
            = some (pyTruncate msg MAX_STATUS_TEXT)
        ∧ (set_key_error d code msg (some 0) false now).last_error_at = some now
        ∧ (set_key_error d code msg (some 0) false now).updated_at = some now
        ∧ (set_key_error d code msg (some 0) false now).cooldown_until
            = d.cooldown_until)
    ∧ retry_after_cooldown (some "0") = 0
    ∧ (∀ (d : KeyDoc) (c : Candidate) (code : Int) (msg : String) (now : Int),
        (set_key_error (update_key_usage d c now) code msg (some 0) false now).cooldown_until
          = d.cooldown_until) := by
  refine ⟨?_, ?_, ?_, ?_, ?_⟩
  · intro d code msg cs dis now
    by_cases hcs : cs = 0
    · subst hcs
      rw [if_pos rfl]
      cases dis <;> rfl
    · rw [if_neg hcs]
      cases dis <;> simp [set_key_error, hcs]
  · intro d code msg dis now
    cases dis <;> rfl
  · intro d code msg now
    exact ⟨rfl, rfl, rfl, rfl, rfl⟩
  · have hstep : retry_after_cooldown (some "0")
        = pyInt ((1 : ℚ) * ((natOfDigits ['0'] : Nat) : ℚ)) := rfl
    have h0 : (natOfDigits ['0'] : Nat) = 0 := rfl
    rw [hstep, h0]
    have hq : ((1 : ℚ) * ((0 : Nat) : ℚ)) = 0 := by norm_num
    rw [hq]
    decide
  · intro d c code msg now
    rfl

/-- Counterexample to C10 as stated: a negative Retry-After parses to a
negative, nonzero cooldown duration, and recording it writes a new
`cooldown_until` in the past — so a non-strictly-positive duration does
produce a new `cooldown_until` timestamp. -/
theorem negative_retry_after_records_cooldown_cex :
    retry_after_cooldown (some "-1") = -1
    ∧ (set_key_error demoEligibleDoc 429 "rate limited" (some (-1)) false 100).cooldown_until
        = some 99
    ∧ demoEligibleDoc.cooldown_until = none
    ∧ ¬ (0 < (-1 : Int)) := by
  refine ⟨?_, rfl, rfl, by decide⟩
  have hstep : retry_after_cooldown (some "-1")
      = pyInt ((-1 : ℚ) * ((natOfDigits ['1'] : Nat) : ℚ)) := rfl
  have h1 : (natOfDigits ['1'] : Nat) = 1 := rfl
  rw [hstep, h1]
  have hq : ((-1 : ℚ) * ((1 : Nat) : ℚ)) = -1 := by norm_num
  rw [hq]
  decide

end Logiq
